import Mathlib

/-!
Shallow embedding of the sync core of the Offline-Based-TODO application
(Express + Prisma backend, `src/api/sync` and `src/api/conflicts`).

Modelling conventions:
* JavaScript objects carrying a flexible `data` payload are modelled by the
  structure `OpData`, whose fields are the database columns the code reads
  or writes; an `Option` field set to `none` models an absent key.
* Database rows are Lean structures; a table is a `List` of rows, and the
  Prisma calls (`findUnique`, `create`, `update` with a `where` clause)
  are recursive functions over those lists.  Prisma exceptions are
  modelled with `Except String`; repository functions that catch their own
  exceptions (returning `null`) return `Option` instead.
* `new Date()` is modelled by the `now : Nat` field of the server state;
  generated primary keys (Prisma `@default(uuid())`) come from the
  `nextId` counter.
* `createdAt` / `updatedAt` timestamps are never inspected by the code
  under verification and are omitted from the row structures.
-/

set_option linter.unusedVariables false

namespace TodoSync

/-- The two entity kinds (`TableNameSchema = z.enum(['todos', 'notes'])`). -/
inductive TableName where
  | todos
  | notes
deriving DecidableEq, Repr

/-- `OperationActionSchema = z.enum(['CREATE', 'UPDATE', 'DELETE'])`. -/
inductive Action where
  | CREATE
  | UPDATE
  | DELETE
deriving DecidableEq, Repr

/-- `OperationStatusSchema = z.enum(['APPLIED', 'CONFLICT', 'ERROR'])`. -/
inductive OpStatus where
  | APPLIED
  | CONFLICT
  | ERROR
deriving DecidableEq, Repr

/-- `ConflictStatusSchema = z.enum(['PENDING', 'RESOLVED', 'DISMISSED'])`. -/
inductive ConflictStatus where
  | PENDING
  | RESOLVED
  | DISMISSED
deriving DecidableEq, Repr

/-- `resolution: z.enum(['CLIENT', 'SERVER', 'CUSTOM'])`. -/
inductive Resolution where
  | CLIENT
  | SERVER
  | CUSTOM
deriving DecidableEq, Repr

/-- A row of the `Todo` / `Note` Prisma models.  `status` is the todo-only
column (`none` for notes); `deletedAt` is the soft-delete timestamp. -/
structure Rec where
  id : String
  title : String
  content : Option String := none
  status : Option String := none
  version : Int
  deletedAt : Option Nat := none
deriving DecidableEq, Repr

/-- The flexible `data` payload of a sync operation
(`data: z.record(z.string(), z.any())`): each field is a key the sync code
reads or forwards to Prisma; `none` models an absent key. -/
structure OpData where
  id : Option String := none
  version : Option Int := none
  title : Option String := none
  content : Option String := none
  status : Option String := none
  deletedAt : Option Nat := none
deriving DecidableEq, Repr

/-- A row of the `ProcessedOperation` model (the idempotency ledger);
`operationId` carries a unique index. -/
structure LedgerEntry where
  operationId : String
  action : String
  tableName : TableName
deriving DecidableEq, Repr

/-- The JavaScript value bound to `dataToApply` in
`ConflictsService.resolveConflict`: it is `conflict.clientData` or
`dto.resolvedData` (a payload object), `conflict.serverData`
(a row snapshot), or `null`. -/
inductive JsVal where
  | null
  | ofData (d : OpData)
  | ofRec (r : Rec)
deriving DecidableEq, Repr

/-- A row of the `Conflict` model.  `operationId` carries a unique index
(migration `20260126160350`); `serverData` is the snapshot at detection
(`none` models JSON null for an absent record). -/
structure Conflict where
  id : String
  operationId : String
  tableName : TableName
  recordId : String
  serverData : Option Rec
  clientData : OpData
  serverVersion : Int
  clientVersion : Int
  status : ConflictStatus
  resolvedData : Option JsVal := none
  resolvedAt : Option Nat := none
deriving DecidableEq, Repr

/-- The whole persistent state of the backend, plus the modelled clock and
the generator for Prisma `@default(uuid())` keys.  `conflicts` is kept
newest-first (Prisma `orderBy createdAt desc`). -/
structure ServerState where
  todos : List Rec
  notes : List Rec
  conflicts : List Conflict
  ledger : List LedgerEntry
  now : Nat
  nextId : Nat
deriving DecidableEq, Repr

/-- Table dispatch (`tableName === 'todos' ? prisma.todo : prisma.note`). -/
def getTable (st : ServerState) : TableName → List Rec
  | .todos => st.todos
  | .notes => st.notes

/-- Write back one table, leaving the other untouched. -/
def setTable (st : ServerState) : TableName → List Rec → ServerState
  | .todos, rs => { st with todos := rs }
  | .notes, rs => { st with notes := rs }

/-- A generated primary key (Prisma `@default(uuid())`). -/
def freshId (st : ServerState) : String :=
  "gen-" ++ toString st.nextId

/-- Prisma `update` on a unique `where` clause: replace the first row
satisfying `p` by its image under `f`, returning the updated row and the
new table; `none` models the `P2025` "record not found" exception. -/
def updateOne (p : Rec → Bool) (f : Rec → Rec) : List Rec → Option (Rec × List Rec)
  | [] => none
  | r :: rs =>
    if p r then some (f r, f r :: rs)
    else
      match updateOne p f rs with
      | none => none
      | some (r', rs') => some (r', r :: rs')

/-- The field assignments reaching a Prisma `update` after the JavaScript
spread: `none` models an absent key (column untouched), `some` a present
key.  `content` and `deletedAt` can be present-with-null (spread of a row
snapshot), hence the nested `Option`. -/
structure Patch where
  title : Option String := none
  content : Option (Option String) := none
  status : Option String := none
  deletedAt : Option (Option Nat) := none
deriving DecidableEq, Repr

/-- Spread of a payload object (keys `id`/`version` already destructured
away by the callers). -/
def OpData.toPatch (d : OpData) : Patch :=
  { title := d.title
    content := d.content.map some
    status := d.status
    deletedAt := d.deletedAt.map some }

/-- Spread of a row snapshot (`{ id, version, ...rest }` on a stored
record): every remaining column key is present, with its stored value. -/
def Rec.toPatch (r : Rec) : Patch :=
  { title := some r.title
    content := some r.content
    status := r.status
    deletedAt := some r.deletedAt }

/-- Apply patch fields to a row and increment `version` by 1
(`version: { increment: 1 }`). -/
def applyPatch (p : Patch) (r : Rec) : Rec :=
  { r with
    title := p.title.getD r.title
    content := p.content.getD r.content
    status := (p.status.map some).getD r.status
    deletedAt := p.deletedAt.getD r.deletedAt
    version := r.version + 1 }

/- ===== SyncRepository ===== -/

/-- `SyncRepository.findRecordById`: `findUnique` including soft-deleted
rows. -/
def findRecordById (st : ServerState) (t : TableName) (i : String) : Option Rec :=
  (getTable st t).find? (fun r => r.id == i)

/-- `SyncRepository.createRecord`: `prisma.<model>.create({ data: { ...data,
version: 1 } })`.  Client-supplied `version` is overridden by the trailing
`version: 1`; every other key of `data` (including `deletedAt`) is passed
through.  Errors model Prisma exceptions: a missing required `title`, an
unknown `status` argument on the `Note` model, and the unique-id
constraint. -/
def createRecord (st : ServerState) (t : TableName) (d : OpData) :
    Except String (Rec × ServerState) :=
  if t = .notes ∧ d.status.isSome then
    .error "Unknown argument status"
  else
    match d.title with
    | none => .error "Argument title is missing"
    | some title =>
      let rid := d.id.getD (freshId st)
      if (getTable st t).any (fun r => r.id == rid) then
        .error "Unique constraint failed on id"
      else
        let r : Rec :=
          { id := rid
            title := title
            content := d.content
            status := if t = .todos then some (d.status.getD "pending") else none
            version := 1
            deletedAt := d.deletedAt }
        .ok (r, { setTable st t (getTable st t ++ [r]) with nextId := st.nextId + 1 })

/-- `SyncRepository.updateRecordWithVersionCheck`: `update` guarded by
`where: { id, version: clientVersion, deletedAt: null }`, setting the
payload fields and incrementing `version`; the surrounding `try/catch`
turns every Prisma exception (no matching row, or the unknown `status`
argument on the `Note` model) into `null`. -/
def updateRecordWithVersionCheck (st : ServerState) (t : TableName) (i : String)
    (clientVersion : Int) (d : OpData) : Option (Rec × ServerState) :=
  if t = .notes ∧ d.status.isSome then none
  else
    match updateOne
        (fun r => r.id == i && r.version == clientVersion && r.deletedAt == none)
        (applyPatch d.toPatch) (getTable st t) with
    | none => none
    | some (r', rs) => some (r', setTable st t rs)

/-- `SyncRepository.deleteRecordWithVersionCheck`: same guard, but sets
`deletedAt = new Date()` and increments `version`; exceptions become
`null`. -/
def deleteRecordWithVersionCheck (st : ServerState) (t : TableName) (i : String)
    (clientVersion : Int) : Option (Rec × ServerState) :=
  match updateOne
      (fun r => r.id == i && r.version == clientVersion && r.deletedAt == none)
      (fun r => { r with deletedAt := some st.now, version := r.version + 1 })
      (getTable st t) with
  | none => none
  | some (r', rs) => some (r', setTable st t rs)

/-- `SyncRepository.createConflict`: insert with `status: 'PENDING'`.
`serverData` is a required `Json` column (`"serverData" JSONB NOT NULL` in
migration `20260119161517`), so Prisma rejects the plain `null` the sync
service passes for an absent record before touching the database — the
first error branch models that client-side validation exception.  The
unique index on `operationId` makes a second conflict for the same
operation a Prisma exception as well. -/
def createConflict (st : ServerState) (operationId : String) (t : TableName)
    (recordId : String) (serverData : Option Rec) (clientData : OpData)
    (serverVersion clientVersion : Int) : Except String (Conflict × ServerState) :=
  if serverData.isNone then
    .error "Argument serverData must not be null"
  else if st.conflicts.any (fun c => c.operationId == operationId) then
    .error "Unique constraint failed on operationId"
  else
    let c : Conflict :=
      { id := freshId st
        operationId := operationId
        tableName := t
        recordId := recordId
        serverData := serverData
        clientData := clientData
        serverVersion := serverVersion
        clientVersion := clientVersion
        status := .PENDING }
    .ok (c, { st with conflicts := c :: st.conflicts, nextId := st.nextId + 1 })

/-- `SyncRepository.operationExists`: `findUnique` on the
`ProcessedOperation` ledger. -/
def operationExists (st : ServerState) (operationId : String) : Bool :=
  st.ledger.any (fun e => e.operationId == operationId)

/-- `SyncRepository.markOperationProcessed`: insert a ledger entry; the
unique index on `operationId` makes a duplicate write an exception. -/
def markOperationProcessed (st : ServerState) (operationId : String)
    (action : String) (t : TableName) : Except String ServerState :=
  if operationExists st operationId then
    .error "Unique constraint failed on operationId"
  else
    .ok { st with ledger := ⟨operationId, action, t⟩ :: st.ledger }

/-- `SyncRepository.conflictExists` — despite its name it merely delegates
to `operationExists` (the ledger), as in the source. -/
def conflictExists (st : ServerState) (operationId : String) : Bool :=
  operationExists st operationId

/- ===== SyncService ===== -/

/-- A decoded sync operation (`SyncOperationSchema`). -/
structure SyncOperation where
  operationId : String
  action : Action
  table : TableName
  data : OpData
deriving DecidableEq, Repr

/-- `OperationResultSchema`. -/
structure OperationResult where
  operationId : String
  status : OpStatus
  message : Option String := none
  data : Option Rec := none
  conflictId : Option String := none
deriving DecidableEq, Repr

/-- JavaScript truthiness of the destructured `id` field: `!id` is true for
an absent key and for the empty string. -/
def idFalsy : Option String → Bool
  | none => true
  | some s => s == ""

/-- `SyncService.handleCreate`: create the record, then write the ledger
entry; its own `try/catch` maps any exception to an ERROR result carrying
the exception message.  There is no transaction: a record created before a
later exception stays created. -/
def handleCreate (st : ServerState) (operationId : String) (t : TableName)
    (d : OpData) : OperationResult × ServerState :=
  match createRecord st t d with
  | .error e =>
    ({ operationId := operationId, status := .ERROR, message := some e }, st)
  | .ok (r, st1) =>
    match markOperationProcessed st1 operationId "CREATE" t with
    | .error e =>
      ({ operationId := operationId, status := .ERROR, message := some e }, st1)
    | .ok st2 =>
      ({ operationId := operationId, status := .APPLIED,
         message := some "Record created successfully", data := some r }, st2)

/-- `SyncService.handleUpdate`.  `handleUpdate` itself has no `try/catch`;
exceptions escaping a repository call (conflict unique-index violation,
duplicate ledger write) bubble up to `processSingleOperation`'s catch,
which answers ERROR "Internal server error" — with every prior write kept
(there is no transaction). -/
def handleUpdate (st : ServerState) (operationId : String) (t : TableName)
    (d : OpData) : OperationResult × ServerState :=
  if idFalsy d.id ∨ d.version = none then
    ({ operationId := operationId, status := .ERROR,
       message := some "Missing id or version in update data" }, st)
  else
    match findRecordById st t (d.id.getD "") with
    | none =>
      match createConflict st operationId t (d.id.getD "") none d 0
          (d.version.getD 0) with
      | .error _ =>
        ({ operationId := operationId, status := .ERROR,
           message := some "Internal server error" }, st)
      | .ok (c, st1) =>
        ({ operationId := operationId, status := .CONFLICT,
           message := some "Record not found on server", conflictId := some c.id }, st1)
    | some serverRecord =>
      if serverRecord.version ≠ d.version.getD 0 then
        match createConflict st operationId t (d.id.getD "") (some serverRecord) d
            serverRecord.version (d.version.getD 0) with
        | .error _ =>
          ({ operationId := operationId, status := .ERROR,
             message := some "Internal server error" }, st)
        | .ok (c, st1) =>
          ({ operationId := operationId, status := .CONFLICT,
             message := some "Version conflict detected", conflictId := some c.id }, st1)
      else
        match updateRecordWithVersionCheck st t (d.id.getD "") (d.version.getD 0)
            { d with id := none, version := none } with
        | none =>
          ({ operationId := operationId, status := .ERROR,
             message := some "Failed to update record (race condition)" }, st)
        | some (updatedRecord, st1) =>
          match markOperationProcessed st1 operationId "UPDATE" t with
          | .error _ =>
            ({ operationId := operationId, status := .ERROR,
               message := some "Internal server error" }, st1)
          | .ok st2 =>
            ({ operationId := operationId, status := .APPLIED,
               message := some "Record updated successfully",
               data := some updatedRecord }, st2)

/-- `SyncService.handleDelete`: tolerant towards absent or already
soft-deleted records. -/
def handleDelete (st : ServerState) (operationId : String) (t : TableName)
    (d : OpData) : OperationResult × ServerState :=
  if idFalsy d.id ∨ d.version = none then
    ({ operationId := operationId, status := .ERROR,
       message := some "Missing id or version in delete data" }, st)
  else
    match findRecordById st t (d.id.getD "") with
    | none =>
      match markOperationProcessed st operationId "DELETE" t with
      | .error _ =>
        ({ operationId := operationId, status := .ERROR,
           message := some "Internal server error" }, st)
      | .ok st1 =>
        ({ operationId := operationId, status := .APPLIED,
           message := some "Record already deleted" }, st1)
    | some serverRecord =>
      if serverRecord.deletedAt.isSome then
        match markOperationProcessed st operationId "DELETE" t with
        | .error _ =>
          ({ operationId := operationId, status := .ERROR,
             message := some "Internal server error" }, st)
        | .ok st1 =>
          ({ operationId := operationId, status := .APPLIED,
             message := some "Record already deleted" }, st1)
      else if serverRecord.version ≠ d.version.getD 0 then
        match createConflict st operationId t (d.id.getD "") (some serverRecord) d
            serverRecord.version (d.version.getD 0) with
        | .error _ =>
          ({ operationId := operationId, status := .ERROR,
             message := some "Internal server error" }, st)
        | .ok (c, st1) =>
          ({ operationId := operationId, status := .CONFLICT,
             message := some "Version conflict detected", conflictId := some c.id }, st1)
      else
        match deleteRecordWithVersionCheck st t (d.id.getD "") (d.version.getD 0) with
        | none =>
          ({ operationId := operationId, status := .ERROR,
             message := some "Failed to delete record (race condition)" }, st)
        | some (deletedRecord, st1) =>
          match markOperationProcessed st1 operationId "DELETE" t with
          | .error _ =>
            ({ operationId := operationId, status := .ERROR,
               message := some "Internal server error" }, st1)
          | .ok st2 =>
            ({ operationId := operationId, status := .APPLIED,
               message := some "Record deleted successfully",
               data := some deletedRecord }, st2)

/-- `SyncService.processSingleOperation`: the idempotency check via
`conflictExists` (the ledger), then dispatch on the action.  The `action`
enum is exhaustive, so the `default` branch of the source's `switch` is
unreachable. -/
def processSingleOperation (st : ServerState) (op : SyncOperation) :
    OperationResult × ServerState :=
  if conflictExists st op.operationId then
    ({ operationId := op.operationId, status := .ERROR,
       message := some "Operation already processed" }, st)
  else
    match op.action with
    | .CREATE => handleCreate st op.operationId op.table op.data
    | .UPDATE => handleUpdate st op.operationId op.table op.data
    | .DELETE => handleDelete st op.operationId op.table op.data

/-- `SyncService.processSyncOperations`: sequential left-to-right
processing, threading the store state. -/
def processSyncOperations (st : ServerState) :
    List SyncOperation → List OperationResult × ServerState
  | [] => ([], st)
  | op :: ops =>
    let (res, st1) := processSingleOperation st op
    let (results, st2) := processSyncOperations st1 ops
    (res :: results, st2)

/- ===== ConflictsService ===== -/

/-- The `ServiceResponse` shape built by `ServiceResponseBuilder`
(`success`, `message`, `statusCode`; the `responseObject` payload is not
inspected by the claims). -/
structure ServiceResponse where
  success : Bool
  message : String
  statusCode : Nat
deriving DecidableEq, Repr

/-- `ResolveConflictSchema`: a resolution choice plus the optional
`resolvedData` payload. -/
structure ResolveConflictDTO where
  resolution : Resolution
  resolvedData : Option OpData := none
deriving DecidableEq, Repr

/-- The JavaScript destructuring
`const { id: recordId, version, ...updateData } = dataToApply`:
destructuring `null` throws a `TypeError` (modelled by `none`); otherwise
the rest-spread of the remaining keys becomes the `Patch` handed to the
record update. -/
def destructureRest : JsVal → Option Patch
  | .null => none
  | .ofData d => some d.toPatch
  | .ofRec r => some r.toPatch

/-- The record update inside `resolveConflict`'s transaction:
`model.update({ where: { id }, data: { ...updateData, version:
{ increment: 1 } } })` — no version check and no tombstone guard.  Errors
model the `P2025` exception for an absent record and the unknown `status`
argument on the `Note` model. -/
def forceUpdateRecord (st : ServerState) (t : TableName) (i : String)
    (p : Patch) : Except String (Rec × ServerState) :=
  if t = .notes ∧ p.status.isSome then
    .error "Unknown argument status"
  else
    match updateOne (fun r => r.id == i) (applyPatch p) (getTable st t) with
    | none => .error "Record to update not found"
    | some (r', rs) => .ok (r', setTable st t rs)

/-- Replace the first conflict with the given id (Prisma
`conflict.update` on the primary key). -/
def updateConflictRow (cs : List Conflict) (i : String) (f : Conflict → Conflict) :
    List Conflict :=
  cs.map (fun c => if c.id == i then f c else c)

/-- The value assigned to `dataToApply` by the `if/else if` chain on
`dto.resolution`: the conflict's `clientData`, its `serverData` (possibly
`null`), or the caller's `resolvedData`. -/
def selectPayload (conflict : Conflict) (dto : ResolveConflictDTO) : JsVal :=
  match dto.resolution with
  | .CLIENT => .ofData conflict.clientData
  | .SERVER =>
    match conflict.serverData with
    | none => .null
    | some r => .ofRec r
  | .CUSTOM =>
    match dto.resolvedData with
    | none => .null
    | some d => .ofData d

/-- `ConflictsService.resolveConflict`: load, require PENDING, select the
payload, then — inside one transaction — force-update the original record
and mark the conflict RESOLVED.  Any exception (including the `TypeError`
from destructuring a `null` `serverData`) is caught and reported as a 500
internal error, with the transaction rolled back. -/
def resolveConflict (st : ServerState) (i : String) (dto : ResolveConflictDTO) :
    ServiceResponse × ServerState :=
  match st.conflicts.find? (fun c => c.id == i) with
  | none => (⟨false, "Conflict not found", 404⟩, st)
  | some conflict =>
    if conflict.status ≠ .PENDING then
      (⟨false, "Conflict has already been resolved or dismissed", 400⟩, st)
    else
      match dto.resolution, dto.resolvedData with
      | .CUSTOM, none =>
        (⟨false, "resolvedData is required for CUSTOM resolution", 400⟩, st)
      | _, _ =>
        match destructureRest (selectPayload conflict dto) with
        | none => (⟨false, "Failed to resolve conflict", 500⟩, st)
        | some p =>
          match forceUpdateRecord st conflict.tableName conflict.recordId p with
          | .error _ => (⟨false, "Failed to resolve conflict", 500⟩, st)
          | .ok (_, st1) =>
            (⟨true, "Conflict resolved successfully", 200⟩,
             { st1 with
                conflicts := updateConflictRow st1.conflicts i
                  (fun c =>
                    { c with
                      status := .RESOLVED
                      resolvedData := some (selectPayload conflict dto)
                      resolvedAt := some st.now }) })

/- ===== Wire layer (SyncRequestSchema / SyncController) ===== -/

/-- A hexadecimal digit (the `z.string().uuid()` character class, with the
case-insensitive flag). -/
def isHexDigit (c : Char) : Bool :=
  c.isDigit || ('a' ≤ c && c ≤ 'f') || ('A' ≤ c && c ≤ 'F')

/-- `z.string().uuid()`: 36 characters in hex groups 8-4-4-4-12 separated
by dashes. -/
def isUuid (s : String) : Bool :=
  let cs := s.toList
  cs.length == 36 &&
    (List.range 36).all (fun k =>
      let c := cs.getD k ' '
      if k = 8 ∨ k = 13 ∨ k = 18 ∨ k = 23 then c == '-' else isHexDigit c)

/-- `SyncOperationSchema` on an already enum-typed operation: the only
refinement left to check is the UUID format of `operationId` (`data` is an
unconstrained record; action and table are enums by construction). -/
def validOp (o : SyncOperation) : Bool :=
  isUuid o.operationId

/-- `SyncRequestSchema.parse`: between 1 and 100 operations, each passing
`SyncOperationSchema`.  No intra-batch uniqueness of `operationId` is
checked. -/
def parseSyncRequest (ops : List SyncOperation) : Except String (List SyncOperation) :=
  if ops.length < 1 then .error "At least one operation is required"
  else if ops.length > 100 then .error "Maximum 100 operations per batch"
  else if ops.all validOp then .ok ops
  else .error "Operation ID must be a valid UUID"

/-- The per-batch summary computed by the controller. -/
structure SyncSummary where
  total : Nat
  applied : Nat
  conflicts : Nat
  errors : Nat
deriving DecidableEq, Repr

/-- `results.filter(...)` counts in `SyncController.sync`. -/
def summarize (results : List OperationResult) : SyncSummary :=
  { total := results.length
    applied := (results.filter (fun r => r.status == .APPLIED)).length
    conflicts := (results.filter (fun r => r.status == .CONFLICT)).length
    errors := (results.filter (fun r => r.status == .ERROR)).length }

/-- The controller's HTTP outcome: 200 with results and summary, or the
400 validation failure built in the `catch` around `SyncRequestSchema.parse`. -/
inductive SyncHttpOutcome where
  | ok (results : List OperationResult) (summary : SyncSummary)
  | validationFailure (message : String)
deriving DecidableEq, Repr

/-- `SyncController.sync`: parse the batch; on schema failure answer the
400 "Invalid sync request" without touching the store; otherwise process
every operation and answer 200. -/
def syncEndpoint (st : ServerState) (ops : List SyncOperation) :
    SyncHttpOutcome × ServerState :=
  match parseSyncRequest ops with
  | .error _ => (.validationFailure "Invalid sync request", st)
  | .ok ops' =>
    let (results, st') := processSyncOperations st ops'
    (.ok results (summarize results), st')

/- ===== Helper lemmas ===== -/

theorem getTable_setTable_same (st : ServerState) (t : TableName) (rs : List Rec) :
    getTable (setTable st t rs) t = rs := by
  cases t <;> rfl

theorem getTable_conflicts_irrelevant (st : ServerState) (cs : List Conflict)
    (t : TableName) : getTable { st with conflicts := cs } t = getTable st t := by
  cases t <;> rfl

theorem updateOne_spec (p : Rec → Bool) (f : Rec → Rec) :
    ∀ (l : List Rec) {r' : Rec} {l' : List Rec},
      updateOne p f l = some (r', l') →
      ∃ r0, r0 ∈ l ∧ p r0 = true ∧ r' = f r0 ∧ r' ∈ l' := by
  intro l
  induction l with
  | nil => intro r' l' h; simp [updateOne] at h
  | cons r rs ih =>
    intro r' l' h
    by_cases hp : p r = true
    · simp only [updateOne, if_pos hp, Option.some.injEq, Prod.mk.injEq] at h
      obtain ⟨h1, h2⟩ := h
      subst h1; subst h2
      exact ⟨r, List.mem_cons_self _ _, hp, rfl, List.mem_cons_self _ _⟩
    · simp only [updateOne, if_neg hp] at h
      cases hm : updateOne p f rs with
      | none => rw [hm] at h; simp at h
      | some pr =>
        obtain ⟨r2, rs2⟩ := pr
        rw [hm] at h
        simp only [Option.some.injEq, Prod.mk.injEq] at h
        obtain ⟨h1, h2⟩ := h
        subst h1; subst h2
        obtain ⟨r0, hmem, hp0, hr, hmem'⟩ := ih hm
        exact ⟨r0, List.mem_cons_of_mem _ hmem, hp0, hr, List.mem_cons_of_mem _ hmem'⟩

theorem updateOne_eq_none (p : Rec → Bool) (f : Rec → Rec) :
    ∀ (l : List Rec), (∀ r ∈ l, p r = false) → updateOne p f l = none := by
  intro l
  induction l with
  | nil => intro _; rfl
  | cons r rs ih =>
    intro h
    have hr := h r (List.mem_cons_self _ _)
    simp only [updateOne]
    rw [if_neg (by simp [hr])]
    rw [ih (fun x hx => h x (List.mem_cons_of_mem _ hx))]

theorem createConflict_ok {st : ServerState} {oid : String} {t : TableName}
    {rid : String} {sd : Option Rec} {cd : OpData} {sv cv : Int}
    {c : Conflict} {st' : ServerState}
    (h : createConflict st oid t rid sd cd sv cv = .ok (c, st')) :
    c = ⟨freshId st, oid, t, rid, sd, cd, sv, cv, .PENDING, none, none⟩ ∧
      st' = { st with conflicts := c :: st.conflicts, nextId := st.nextId + 1 } := by
  simp only [createConflict] at h
  split at h
  · simp at h
  · split at h
    · simp at h
    · simp only [Except.ok.injEq, Prod.mk.injEq] at h
      obtain ⟨h1, h2⟩ := h
      subst h1; subst h2
      exact ⟨rfl, rfl⟩

theorem markOperationProcessed_ok {st : ServerState} {oid a : String}
    {t : TableName} {st' : ServerState}
    (h : markOperationProcessed st oid a t = .ok st') :
    st' = { st with ledger := ⟨oid, a, t⟩ :: st.ledger } := by
  simp only [markOperationProcessed] at h
  split at h
  · simp at h
  · simp only [Except.ok.injEq] at h
    exact h.symm

theorem createRecord_ok {st : ServerState} {t : TableName} {d : OpData}
    {r : Rec} {st' : ServerState} (h : createRecord st t d = .ok (r, st')) :
    r.version = 1 ∧ r.deletedAt = d.deletedAt := by
  simp only [createRecord] at h
  split at h
  · simp at h
  · split at h
    · simp at h
    · split at h
      · simp at h
      · simp only [Except.ok.injEq, Prod.mk.injEq] at h
        obtain ⟨h1, _⟩ := h
        subst h1
        exact ⟨rfl, rfl⟩

theorem processSyncOperations_length (ops : List SyncOperation) :
    ∀ st : ServerState, (processSyncOperations st ops).1.length = ops.length := by
  induction ops with
  | nil => intro st; rfl
  | cons op ops ih =>
    intro st
    simp only [processSyncOperations, List.length_cons, ih]

/- ===== Claim theorems ===== -/

/-- C2: if an operation's `operationId` is already present in the
processed-operations ledger, the sync processor answers ERROR
"Operation already processed" and leaves the whole server state unchanged:
no record, conflict or ledger write happens. -/
theorem duplicate_operation_pure_error (st : ServerState) (op : SyncOperation)
    (h : operationExists st op.operationId = true) :
    processSingleOperation st op =
      ({ operationId := op.operationId, status := .ERROR,
         message := some "Operation already processed",
         data := none, conflictId := none }, st) := by
  simp [processSingleOperation, conflictExists, h]

def c2WitnessState : ServerState :=
  ⟨[], [], [], [⟨"o1", "CREATE", .todos⟩], 7, 0⟩

def c2WitnessOp : SyncOperation :=
  { operationId := "o1", action := .CREATE, table := .todos,
    data := { title := some "x" } }

/-- Witness for C2 at a concrete ledger state. -/
theorem duplicate_operation_pure_error_witness :
    operationExists c2WitnessState c2WitnessOp.operationId = true ∧
      processSingleOperation c2WitnessState c2WitnessOp =
        ({ operationId := c2WitnessOp.operationId, status := .ERROR,
           message := some "Operation already processed",
           data := none, conflictId := none }, c2WitnessState) :=
  ⟨by decide, duplicate_operation_pure_error c2WitnessState c2WitnessOp (by decide)⟩

def c1Conflict : Conflict :=
  { id := "c1", operationId := "op1", tableName := .todos, recordId := "t9",
    serverData := none, clientData := { id := some "t9", version := some 3 },
    serverVersion := 0, clientVersion := 3, status := .PENDING }

def c1State : ServerState := ⟨[], [], [c1Conflict], [], 7, 0⟩

/-- C1: resolving a PENDING absent-record conflict (`serverData = null`)
with choice SERVER does NOT succeed: destructuring `null` throws, the
service answers the 500 "Failed to resolve conflict", and the conflict is
left PENDING with `resolvedAt` unset — the code contradicts the spec's
"must still mark the conflict RESOLVED". -/
theorem server_resolution_on_null_serverData_fails :
    resolveConflict c1State "c1" { resolution := .SERVER } =
      (⟨false, "Failed to resolve conflict", 500⟩, c1State) ∧
      (c1State.conflicts.find? (fun c => c.id == "c1")).map Conflict.status =
        some .PENDING ∧
      (c1State.conflicts.find? (fun c => c.id == "c1")).map Conflict.resolvedAt =
        some none := by
  decide

/-- C10: a batch containing an operation whose `operationId` is not
UUID-formatted is rejected whole by the wire layer (`SyncRequestSchema`)
with the controller's 400 "Invalid sync request", and no operation is
processed — the server state is untouched. -/
theorem nonUuid_operationId_rejects_batch (st : ServerState)
    (ops : List SyncOperation) (o : SyncOperation) (hmem : o ∈ ops)
    (hbad : isUuid o.operationId = false) :
    syncEndpoint st ops = (.validationFailure "Invalid sync request", st) := by
  have hlen : ¬ ops.length < 1 := by
    have := List.length_pos.mpr (List.ne_nil_of_mem hmem)
    omega
  by_cases h100 : ops.length > 100
  · simp only [syncEndpoint, parseSyncRequest, if_neg hlen, if_pos h100]
  · have hall : ops.all validOp = false := by
      by_contra hc
      have : ops.all validOp = true := by
        cases hx : ops.all validOp
        · exact absurd hx hc
        · rfl
      have := List.all_eq_true.mp this o hmem
      rw [validOp, hbad] at this
      exact Bool.false_ne_true this
    simp only [syncEndpoint, parseSyncRequest, if_neg hlen, if_neg h100, hall,
      Bool.false_eq_true, if_false]

def c10State : ServerState := ⟨[], [], [], [], 0, 0⟩

def c10Op : SyncOperation :=
  { operationId := "not-a-uuid", action := .CREATE, table := .todos,
    data := { title := some "x" } }

/-- Witness for C10 at a concrete malformed batch. -/
theorem nonUuid_operationId_rejects_batch_witness :
    c10Op ∈ [c10Op] ∧ isUuid c10Op.operationId = false ∧
      syncEndpoint c10State [c10Op] =
        (.validationFailure "Invalid sync request", c10State) :=
  ⟨by decide, by decide,
    nonUuid_operationId_rejects_batch c10State [c10Op] c10Op (by decide) (by decide)⟩

/-- C5: a DELETE aimed at an absent or already tombstoned record (for a
well-formed payload carrying `id` and `version`, with a fresh
`operationId`) is tolerated: the result is APPLIED with message "Record
already deleted", exactly one ledger entry is appended, and no record,
note or conflict is created or mutated. -/
theorem tolerant_delete (st : ServerState) (op : SyncOperation) (i : String)
    (v : Int) (hact : op.action = .DELETE) (hid : op.data.id = some i)
    (hne : i ≠ "") (hv : op.data.version = some v)
    (hdup : operationExists st op.operationId = false)
    (habs : ∀ r, findRecordById st op.table i = some r → r.deletedAt.isSome) :
    processSingleOperation st op =
      ({ operationId := op.operationId, status := .APPLIED,
         message := some "Record already deleted",
         data := none, conflictId := none },
       { st with ledger := ⟨op.operationId, "DELETE", op.table⟩ :: st.ledger }) := by
  simp only [processSingleOperation, conflictExists, hdup, Bool.false_eq_true,
    if_false, hact]
  simp only [handleDelete, idFalsy, hid, hv, Option.getD_some, beq_iff_eq, hne,
    or_self, Bool.false_eq_true, if_false, markOperationProcessed, hdup,
    reduceCtorEq, ite_false]
  cases hfind : findRecordById st op.table i with
  | none => simp
  | some r =>
    have hsome := habs r hfind
    simp [hsome]

def c5State : ServerState :=
  ⟨[], [⟨"n1", "old", none, none, 4, some 3⟩], [], [], 9, 0⟩

def c5Op : SyncOperation :=
  { operationId := "o5", action := .DELETE, table := .notes,
    data := { id := some "n1", version := some 4 } }

/-- Witness for C5: deleting an already tombstoned note. -/
theorem tolerant_delete_witness :
    c5Op.action = .DELETE ∧ c5Op.data.id = some "n1" ∧
      operationExists c5State c5Op.operationId = false ∧
      processSingleOperation c5State c5Op =
        ({ operationId := c5Op.operationId, status := .APPLIED,
           message := some "Record already deleted",
           data := none, conflictId := none },
         { c5State with
            ledger := ⟨c5Op.operationId, "DELETE", c5Op.table⟩ :: c5State.ledger }) :=
  ⟨rfl, rfl, by decide,
    tolerant_delete c5State c5Op "n1" 4 rfl rfl (by decide) rfl (by decide)
      (by
        intro r h
        have h' : some (⟨"n1", "old", none, none, 4, some 3⟩ : Rec) = some r := h
        injection h' with h''
        rw [← h'']
        rfl)⟩

/-- C6: an UPDATE whose `data.id` names no record does NOT produce the
claimed CONFLICT.  `handleUpdate` does call `createConflict` with
`serverData = null`, but `serverData` is a required Json column, so the
insert throws before reaching the database; `handleUpdate` has no catch
of its own, and `processSingleOperation`'s catch answers ERROR "Internal
server error" with the state unchanged — no conflict row is persisted.
The claim (and spec §4.4.2) states the clear intent of the dead
conflict-creation branch; the code is the slip. -/
theorem update_absent_target_internal_error (st : ServerState)
    (op : SyncOperation) (i : String) (v : Int) (hact : op.action = .UPDATE)
    (hid : op.data.id = some i) (hne : i ≠ "") (hv : op.data.version = some v)
    (hdup : operationExists st op.operationId = false)
    (hfind : findRecordById st op.table i = none) :
    processSingleOperation st op =
      ({ operationId := op.operationId, status := .ERROR,
         message := some "Internal server error",
         data := none, conflictId := none }, st) := by
  simp only [processSingleOperation, conflictExists, hdup, Bool.false_eq_true,
    if_false, hact]
  simp only [handleUpdate, idFalsy, hid, hv, Option.getD_some, beq_iff_eq, hne,
    or_self, Bool.false_eq_true, if_false, hfind, createConflict,
    Option.isNone_none, if_true, reduceCtorEq, ite_false]

def c6State : ServerState := ⟨[], [], [], [], 3, 5⟩

def c6Op : SyncOperation :=
  { operationId := "o6", action := .UPDATE, table := .todos,
    data := { id := some "missing", version := some 2, title := some "new" } }

/-- Witness for C6: updating an id unknown to the server ends in the
internal error, with no conflict created. -/
theorem update_absent_target_internal_error_witness :
    findRecordById c6State c6Op.table "missing" = none ∧
      processSingleOperation c6State c6Op =
        ({ operationId := c6Op.operationId, status := .ERROR,
           message := some "Internal server error",
           data := none, conflictId := none }, c6State) :=
  ⟨by decide,
    update_absent_target_internal_error c6State c6Op "missing" 2 rfl rfl
      (by decide) rfl (by decide) (by decide)⟩

/-- C9: an UPDATE aimed at a tombstoned record whose stored version equals
the client's version reaches the versioned update, which refuses to match
a tombstone: the result is ERROR "Failed to update record (race
condition)" — neither APPLIED nor CONFLICT — and the server state is
completely unchanged (no record mutation, no ledger entry, no conflict). -/
theorem update_tombstone_version_match_error (st : ServerState)
    (op : SyncOperation) (i : String) (v : Int) (r : Rec)
    (hact : op.action = .UPDATE) (hid : op.data.id = some i) (hne : i ≠ "")
    (hv : op.data.version = some v)
    (hdup : operationExists st op.operationId = false)
    (hfind : findRecordById st op.table i = some r) (hver : r.version = v)
    (htomb : ∀ r' ∈ getTable st op.table, r'.id = i → r'.deletedAt.isSome) :
    processSingleOperation st op =
      ({ operationId := op.operationId, status := .ERROR,
         message := some "Failed to update record (race condition)",
         data := none, conflictId := none }, st) := by
  have hupd : updateRecordWithVersionCheck st op.table i v
      { op.data with id := none, version := none } = none := by
    unfold updateRecordWithVersionCheck
    split
    · rfl
    · rw [updateOne_eq_none]
      intro r' hr'
      by_cases hidr : r'.id = i
      · have hs := htomb r' hr' hidr
        obtain ⟨y, hy⟩ := Option.isSome_iff_exists.mp hs
        simp [hy]
      · simp [hidr]
  simp only [processSingleOperation, conflictExists, hdup, Bool.false_eq_true,
    if_false, hact]
  simp only [handleUpdate, idFalsy, hid, hv, Option.getD_some, beq_iff_eq, hne,
    or_self, Bool.false_eq_true, if_false, hfind, hver, ne_eq,
    not_true_eq_false, ite_false, hupd, reduceCtorEq]

def c9State : ServerState :=
  ⟨[⟨"t1", "a", none, some "pending", 2, some 5⟩], [], [], [], 7, 0⟩

def c9Op : SyncOperation :=
  { operationId := "o9", action := .UPDATE, table := .todos,
    data := { id := some "t1", version := some 2, title := some "b" } }

/-- Witness for C9: version-matching update against a tombstone. -/
theorem update_tombstone_version_match_error_witness :
    findRecordById c9State c9Op.table "t1" =
        some ⟨"t1", "a", none, some "pending", 2, some 5⟩ ∧
      processSingleOperation c9State c9Op =
        ({ operationId := c9Op.operationId, status := .ERROR,
           message := some "Failed to update record (race condition)",
           data := none, conflictId := none }, c9State) :=
  ⟨by decide,
    update_tombstone_version_match_error c9State c9Op "t1" 2
      ⟨"t1", "a", none, some "pending", 2, some 5⟩ rfl rfl (by decide) rfl
      (by decide) (by decide) (by decide)
      (by
        intro r' h1 h2
        have h1' : r' ∈ [(⟨"t1", "a", none, some "pending", 2, some 5⟩ : Rec)] := h1
        rw [List.mem_singleton] at h1'
        subst h1'
        rfl)⟩

def c7State : ServerState := ⟨[], [], [], [], 0, 0⟩

def c7Op : SyncOperation :=
  { operationId := "o7", action := .CREATE, table := .todos,
    data := { id := some "t1", title := some "x", version := some 5,
              deletedAt := some 99 } }

/-- C7 counterexample: a CREATE whose payload carries `deletedAt = 99`
succeeds (APPLIED) yet persists a record with `deletedAt = some 99`, not
`null` — the client-supplied `deletedAt` is not ignored (only `version`
is overridden, to 1). -/
theorem create_persists_client_deletedAt :
    (processSingleOperation c7State c7Op).1.status = .APPLIED ∧
      ((processSingleOperation c7State c7Op).2.todos.find?
          (fun r => r.id == "t1")).map Rec.deletedAt = some (some 99) := by
  decide

/-- C7 amended: every successful CREATE persists a record whose `version`
is 1 regardless of any client-supplied `version`, but whose `deletedAt` is
taken verbatim from the client payload (hence `null` exactly when the
client omitted it). -/
theorem create_forces_version_one (st : ServerState) (op : SyncOperation)
    (res : OperationResult) (st' : ServerState) (r : Rec)
    (hact : op.action = .CREATE)
    (h : processSingleOperation st op = (res, st'))
    (hs : res.status = .APPLIED) (hd : res.data = some r) :
    r.version = 1 ∧ r.deletedAt = op.data.deletedAt := by
  obtain ⟨oid, act, tbl, d⟩ := op
  simp only at hact
  subst hact
  simp only [processSingleOperation, handleCreate] at h
  split at h
  · simp only [Prod.mk.injEq] at h
    obtain ⟨h1, _⟩ := h
    rw [← h1] at hs
    simp at hs
  · cases hc : createRecord st tbl d with
    | error e =>
      simp only [hc] at h
      simp only [Prod.mk.injEq] at h
      obtain ⟨h1, _⟩ := h
      rw [← h1] at hs
      simp at hs
    | ok pr =>
      obtain ⟨r0, st1⟩ := pr
      simp only [hc] at h
      cases hm : markOperationProcessed st1 oid "CREATE" tbl with
      | error e =>
        simp only [hm] at h
        simp only [Prod.mk.injEq] at h
        obtain ⟨h1, _⟩ := h
        rw [← h1] at hs
        simp at hs
      | ok st2 =>
        simp only [hm] at h
        simp only [Prod.mk.injEq] at h
        obtain ⟨h1, _⟩ := h
        rw [← h1] at hd
        simp only [Option.some.injEq] at hd
        rw [← hd]
        exact createRecord_ok hc

/-- Witness for the amended C7 on a concrete CREATE carrying both a client
`version` and a client `deletedAt`. -/
theorem create_forces_version_one_witness :
    c7Op.action = .CREATE ∧
      (processSingleOperation c7State c7Op).1.status = .APPLIED ∧
      ((processSingleOperation c7State c7Op).1.data.getD
          ⟨"", "", none, none, 0, none⟩).version = 1 ∧
      ((processSingleOperation c7State c7Op).1.data.getD
          ⟨"", "", none, none, 0, none⟩).deletedAt = c7Op.data.deletedAt :=
  ⟨rfl, by decide,
    (create_forces_version_one c7State c7Op (processSingleOperation c7State c7Op).1
      (processSingleOperation c7State c7Op).2
      ((processSingleOperation c7State c7Op).1.data.getD ⟨"", "", none, none, 0, none⟩)
      rfl rfl (by decide) (by decide)).1,
    (create_forces_version_one c7State c7Op (processSingleOperation c7State c7Op).1
      (processSingleOperation c7State c7Op).2
      ((processSingleOperation c7State c7Op).1.data.getD ⟨"", "", none, none, 0, none⟩)
      rfl rfl (by decide) (by decide)).2⟩

def c8State : ServerState := ⟨[], [], [], [], 0, 0⟩

def c8Op : SyncOperation :=
  { operationId := "11111111-1111-1111-1111-111111111111", action := .CREATE,
    table := .todos, data := { id := some "t1", title := some "x" } }

/-- C8 counterexample: a batch holding the same `operationId` twice passes
`SyncRequestSchema` (which never checks intra-batch uniqueness), is not
rejected with the 400 "Invalid sync request", and both operations are
dispatched to the sync processor — the second one getting the
processor-level ERROR "Operation already processed". -/
theorem duplicate_batch_not_rejected :
    parseSyncRequest [c8Op, c8Op] = .ok [c8Op, c8Op] ∧
      (syncEndpoint c8State [c8Op, c8Op]).1 ≠
        .validationFailure "Invalid sync request" ∧
      (processSyncOperations c8State [c8Op, c8Op]).1.map OperationResult.status =
        [.APPLIED, .ERROR] ∧
      ((processSyncOperations c8State [c8Op, c8Op]).1.map
          OperationResult.message).getLast? =
        some (some "Operation already processed") :=
  ⟨rfl, by decide, by decide, by decide⟩

/-- C8 amended: the wire layer does not enforce intra-batch uniqueness of
`operationId`: any batch of 1 to 100 operations whose ids are each
UUID-formatted — duplicates included — is accepted, and every operation of
the batch is dispatched to the sync processor, yielding one result per
operation. -/
theorem valid_batch_always_dispatched (st : ServerState)
    (ops : List SyncOperation) (h1 : 1 ≤ ops.length) (h2 : ops.length ≤ 100)
    (h3 : ∀ o ∈ ops, isUuid o.operationId = true) :
    syncEndpoint st ops =
      (.ok (processSyncOperations st ops).1
        (summarize (processSyncOperations st ops).1),
       (processSyncOperations st ops).2) ∧
      (processSyncOperations st ops).1.length = ops.length := by
  have hlen : ¬ ops.length < 1 := by omega
  have h100 : ¬ ops.length > 100 := by omega
  have hall : ops.all validOp = true :=
    List.all_eq_true.mpr (fun o ho => h3 o ho)
  refine ⟨?_, processSyncOperations_length ops st⟩
  simp only [syncEndpoint, parseSyncRequest, if_neg hlen, if_neg h100, hall,
    if_true]

/-- Witness for the amended C8 on the concrete duplicate batch. -/
theorem valid_batch_always_dispatched_witness :
    1 ≤ ([c8Op, c8Op] : List SyncOperation).length ∧
      ([c8Op, c8Op] : List SyncOperation).length ≤ 100 ∧
      syncEndpoint c8State [c8Op, c8Op] =
        (.ok (processSyncOperations c8State [c8Op, c8Op]).1
          (summarize (processSyncOperations c8State [c8Op, c8Op]).1),
         (processSyncOperations c8State [c8Op, c8Op]).2) ∧
      (processSyncOperations c8State [c8Op, c8Op]).1.length = 2 :=
  ⟨by decide, by decide,
    (valid_batch_always_dispatched c8State [c8Op, c8Op] (by decide) (by decide)
      (by intro o ho; fin_cases ho <;> decide)).1,
    (valid_batch_always_dispatched c8State [c8Op, c8Op] (by decide) (by decide)
      (by intro o ho; fin_cases ho <;> decide)).2⟩

/-- C3: every successful mutation advances the mutated record's version by
exactly one.  The versioned update and the versioned soft delete only ever
fire on a stored row whose version equals the client's version and leave
the row with that version plus 1; a successful conflict resolution
rewrites the conflict's record from its stored version n to n + 1.  Hence
each successful mutation takes a record from version n to n + 1 and the
per-record version sequence is strictly increasing. -/
theorem successful_mutations_increment_version (st : ServerState)
    (t : TableName) (i : String) (v : Int) (d : OpData) (ru : Rec)
    (stu : ServerState) (rd : Rec) (std : ServerState) (cid : String)
    (dto : ResolveConflictDTO) (resp : ServiceResponse) (str : ServerState) :
    (updateRecordWithVersionCheck st t i v d = some (ru, stu) →
      ∃ r0, r0 ∈ getTable st t ∧ r0.id = i ∧ r0.version = v ∧
        r0.deletedAt = none ∧ ru.version = r0.version + 1 ∧
        ru ∈ getTable stu t) ∧
    (deleteRecordWithVersionCheck st t i v = some (rd, std) →
      ∃ r0, r0 ∈ getTable st t ∧ r0.id = i ∧ r0.version = v ∧
        r0.deletedAt = none ∧ rd.version = r0.version + 1 ∧
        rd ∈ getTable std t) ∧
    (resolveConflict st cid dto = (resp, str) → resp.success = true →
      ∃ c r0 r1, st.conflicts.find? (fun c0 => c0.id == cid) = some c ∧
        r0 ∈ getTable st c.tableName ∧ r0.id = c.recordId ∧
        r1 ∈ getTable str c.tableName ∧ r1.version = r0.version + 1) := by
  refine ⟨?_, ?_, ?_⟩
  · intro h
    unfold updateRecordWithVersionCheck at h
    split at h
    · simp at h
    · cases hm : updateOne
          (fun r => r.id == i && r.version == v && r.deletedAt == none)
          (applyPatch d.toPatch) (getTable st t) with
      | none =>
        simp only [hm] at h
        exact Option.noConfusion h
      | some pr =>
        obtain ⟨r2, rs⟩ := pr
        simp only [hm, Option.some.injEq, Prod.mk.injEq] at h
        obtain ⟨h1, h2⟩ := h
        subst h1; subst h2
        obtain ⟨r0, hmem, hp, hfr, hmem'⟩ := updateOne_spec _ _ _ hm
        simp only [Bool.and_eq_true, beq_iff_eq] at hp
        obtain ⟨⟨hpi, hpv⟩, hpd⟩ := hp
        subst hfr
        exact ⟨r0, hmem, hpi, hpv, hpd, rfl,
          by rw [getTable_setTable_same]; exact hmem'⟩
  · intro h
    unfold deleteRecordWithVersionCheck at h
    cases hm : updateOne
        (fun r => r.id == i && r.version == v && r.deletedAt == none)
        (fun r => { r with deletedAt := some st.now, version := r.version + 1 })
        (getTable st t) with
    | none =>
      simp only [hm] at h
      exact Option.noConfusion h
    | some pr =>
      obtain ⟨r2, rs⟩ := pr
      simp only [hm, Option.some.injEq, Prod.mk.injEq] at h
      obtain ⟨h1, h2⟩ := h
      subst h1; subst h2
      obtain ⟨r0, hmem, hp, hfr, hmem'⟩ := updateOne_spec _ _ _ hm
      simp only [Bool.and_eq_true, beq_iff_eq] at hp
      obtain ⟨⟨hpi, hpv⟩, hpd⟩ := hp
      subst hfr
      exact ⟨r0, hmem, hpi, hpv, hpd, rfl,
        by rw [getTable_setTable_same]; exact hmem'⟩
  · intro h hsucc
    unfold resolveConflict at h
    cases hf : st.conflicts.find? (fun c0 => c0.id == cid) with
    | none =>
      simp only [hf, Prod.mk.injEq] at h
      obtain ⟨h1, _⟩ := h
      rw [← h1] at hsucc
      simp at hsucc
    | some c =>
      simp only [hf] at h
      split at h
      · simp only [Prod.mk.injEq] at h
        obtain ⟨h1, _⟩ := h
        rw [← h1] at hsucc
        simp at hsucc
      · split at h
        · simp only [Prod.mk.injEq] at h
          obtain ⟨h1, _⟩ := h
          rw [← h1] at hsucc
          simp at hsucc
        · cases hdes : destructureRest (selectPayload c dto) with
          | none =>
            simp only [hdes, Prod.mk.injEq] at h
            obtain ⟨h1, _⟩ := h
            rw [← h1] at hsucc
            simp at hsucc
          | some p =>
            simp only [hdes] at h
            cases hforce : forceUpdateRecord st c.tableName c.recordId p with
            | error e =>
              simp only [hforce, Prod.mk.injEq] at h
              obtain ⟨h1, _⟩ := h
              rw [← h1] at hsucc
              simp at hsucc
            | ok pr =>
              obtain ⟨r1, st1⟩ := pr
              simp only [hforce, Prod.mk.injEq] at h
              obtain ⟨_, h2⟩ := h
              subst h2
              unfold forceUpdateRecord at hforce
              split at hforce
              · simp at hforce
              · cases hm : updateOne (fun r => r.id == c.recordId)
                    (applyPatch p) (getTable st c.tableName) with
                | none =>
                  simp only [hm] at hforce
                  exact Except.noConfusion hforce
                | some pr2 =>
                  obtain ⟨r2, rs⟩ := pr2
                  simp only [hm, Except.ok.injEq, Prod.mk.injEq] at hforce
                  obtain ⟨hf1, hf2⟩ := hforce
                  subst hf1; subst hf2
                  obtain ⟨r0, hmem, hp0, hfr, hmem'⟩ := updateOne_spec _ _ _ hm
                  simp only [beq_iff_eq] at hp0
                  subst hfr
                  exact ⟨c, r0, applyPatch p r0, rfl, hmem, hp0,
                    by
                      rw [getTable_conflicts_irrelevant, getTable_setTable_same]
                      exact hmem',
                    rfl⟩

def c3State : ServerState :=
  ⟨[⟨"t1", "old", none, some "pending", 2, none⟩], [],
   [⟨"c9", "opX", .todos, "t1", some ⟨"t1", "old", none, some "pending", 2, none⟩,
     { id := some "t1", version := some 1, title := some "mine" }, 2, 1,
     .PENDING, none, none⟩], [], 4, 0⟩

def c3Data : OpData := { title := some "fresh" }

def c3UpdRes : Option (Rec × ServerState) :=
  updateRecordWithVersionCheck c3State .todos "t1" 2 c3Data

def c3DelRes : Option (Rec × ServerState) :=
  deleteRecordWithVersionCheck c3State .todos "t1" 2

def c3ResolveRes : ServiceResponse × ServerState :=
  resolveConflict c3State "c9" { resolution := .CLIENT }

def c3Fallback : Rec × ServerState := (⟨"", "", none, none, 0, none⟩, c3State)

/-- Witness for C3: a concrete versioned update, versioned soft delete and
CLIENT conflict resolution on the same starting state, all successful. -/
theorem successful_mutations_increment_version_witness :
    updateRecordWithVersionCheck c3State .todos "t1" 2 c3Data =
        some ((c3UpdRes.getD c3Fallback).1, (c3UpdRes.getD c3Fallback).2) ∧
      deleteRecordWithVersionCheck c3State .todos "t1" 2 =
        some ((c3DelRes.getD c3Fallback).1, (c3DelRes.getD c3Fallback).2) ∧
      resolveConflict c3State "c9" { resolution := .CLIENT } =
        (c3ResolveRes.1, c3ResolveRes.2) ∧
      c3ResolveRes.1.success = true ∧
      (∃ r0, r0 ∈ getTable c3State .todos ∧ r0.id = "t1" ∧ r0.version = 2 ∧
        r0.deletedAt = none ∧
        (c3UpdRes.getD c3Fallback).1.version = r0.version + 1 ∧
        (c3UpdRes.getD c3Fallback).1 ∈
          getTable (c3UpdRes.getD c3Fallback).2 .todos) ∧
      (∃ r0, r0 ∈ getTable c3State .todos ∧ r0.id = "t1" ∧ r0.version = 2 ∧
        r0.deletedAt = none ∧
        (c3DelRes.getD c3Fallback).1.version = r0.version + 1 ∧
        (c3DelRes.getD c3Fallback).1 ∈
          getTable (c3DelRes.getD c3Fallback).2 .todos) ∧
      (∃ c r0 r1,
        c3State.conflicts.find? (fun c0 => c0.id == "c9") = some c ∧
        r0 ∈ getTable c3State c.tableName ∧ r0.id = c.recordId ∧
        r1 ∈ getTable c3ResolveRes.2 c.tableName ∧
        r1.version = r0.version + 1) := by
  have hu : updateRecordWithVersionCheck c3State .todos "t1" 2 c3Data =
      some ((c3UpdRes.getD c3Fallback).1, (c3UpdRes.getD c3Fallback).2) := by
    decide
  have hd : deleteRecordWithVersionCheck c3State .todos "t1" 2 =
      some ((c3DelRes.getD c3Fallback).1, (c3DelRes.getD c3Fallback).2) := by
    decide
  have hr : resolveConflict c3State "c9" { resolution := .CLIENT } =
      (c3ResolveRes.1, c3ResolveRes.2) := by
    decide
  have hs : c3ResolveRes.1.success = true := by decide
  have main := successful_mutations_increment_version c3State .todos "t1" 2
    c3Data (c3UpdRes.getD c3Fallback).1 (c3UpdRes.getD c3Fallback).2
    (c3DelRes.getD c3Fallback).1 (c3DelRes.getD c3Fallback).2 "c9"
    { resolution := .CLIENT } c3ResolveRes.1 c3ResolveRes.2
  exact ⟨hu, hd, hr, hs, main.1 hu, main.2.1 hd, main.2.2 hr hs⟩

theorem handleCreate_status_ne_conflict {st : ServerState} {oid : String}
    {t : TableName} {d : OpData} {res : OperationResult} {st' : ServerState}
    (h : handleCreate st oid t d = (res, st')) : res.status ≠ .CONFLICT := by
  unfold handleCreate at h
  cases hc : createRecord st t d with
  | error e =>
    simp only [hc, Prod.mk.injEq] at h
    rw [← h.1]
    simp
  | ok pr =>
    obtain ⟨r0, st1⟩ := pr
    simp only [hc] at h
    cases hm : markOperationProcessed st1 oid "CREATE" t with
    | error e =>
      simp only [hm, Prod.mk.injEq] at h
      rw [← h.1]
      simp
    | ok st2 =>
      simp only [hm, Prod.mk.injEq] at h
      rw [← h.1]
      simp

theorem handleUpdate_conflict_frame {st : ServerState} {oid : String}
    {t : TableName} {d : OpData} {res : OperationResult} {st' : ServerState}
    (h : handleUpdate st oid t d = (res, st')) (hs : res.status = .CONFLICT) :
    ∃ c, st'.todos = st.todos ∧ st'.notes = st.notes ∧
      st'.ledger = st.ledger ∧ st'.conflicts = c :: st.conflicts := by
  unfold handleUpdate at h
  split at h
  · simp only [Prod.mk.injEq] at h
    rw [← h.1] at hs
    simp at hs
  · cases hf : findRecordById st t (d.id.getD "") with
    | none =>
      simp only [hf] at h
      cases hcc : createConflict st oid t (d.id.getD "") none d 0
          (d.version.getD 0) with
      | error e =>
        simp only [hcc, Prod.mk.injEq] at h
        rw [← h.1] at hs
        simp at hs
      | ok pr =>
        obtain ⟨c, st1⟩ := pr
        simp only [hcc, Prod.mk.injEq] at h
        obtain ⟨h1, h2⟩ := h
        subst h2
        obtain ⟨hc, hshape⟩ := createConflict_ok hcc
        subst hshape
        exact ⟨c, rfl, rfl, rfl, rfl⟩
    | some serverRecord =>
      simp only [hf] at h
      split at h
      · cases hcc : createConflict st oid t (d.id.getD "") (some serverRecord) d
            serverRecord.version (d.version.getD 0) with
        | error e =>
          simp only [hcc, Prod.mk.injEq] at h
          rw [← h.1] at hs
          simp at hs
        | ok pr =>
          obtain ⟨c, st1⟩ := pr
          simp only [hcc, Prod.mk.injEq] at h
          obtain ⟨h1, h2⟩ := h
          subst h2
          obtain ⟨hc, hshape⟩ := createConflict_ok hcc
          subst hshape
          exact ⟨c, rfl, rfl, rfl, rfl⟩
      · cases hu : updateRecordWithVersionCheck st t (d.id.getD "")
            (d.version.getD 0) { d with id := none, version := none } with
        | none =>
          simp only [hu, Prod.mk.injEq] at h
          rw [← h.1] at hs
          simp at hs
        | some pr =>
          obtain ⟨r1, st1⟩ := pr
          simp only [hu] at h
          cases hm : markOperationProcessed st1 oid "UPDATE" t with
          | error e =>
            simp only [hm, Prod.mk.injEq] at h
            rw [← h.1] at hs
            simp at hs
          | ok st2 =>
            simp only [hm, Prod.mk.injEq] at h
            rw [← h.1] at hs
            simp at hs

theorem handleDelete_conflict_frame {st : ServerState} {oid : String}
    {t : TableName} {d : OpData} {res : OperationResult} {st' : ServerState}
    (h : handleDelete st oid t d = (res, st')) (hs : res.status = .CONFLICT) :
    ∃ c, st'.todos = st.todos ∧ st'.notes = st.notes ∧
      st'.ledger = st.ledger ∧ st'.conflicts = c :: st.conflicts := by
  unfold handleDelete at h
  split at h
  · simp only [Prod.mk.injEq] at h
    rw [← h.1] at hs
    simp at hs
  · cases hf : findRecordById st t (d.id.getD "") with
    | none =>
      simp only [hf] at h
      cases hm : markOperationProcessed st oid "DELETE" t with
      | error e =>
        simp only [hm, Prod.mk.injEq] at h
        rw [← h.1] at hs
        simp at hs
      | ok st1 =>
        simp only [hm, Prod.mk.injEq] at h
        rw [← h.1] at hs
        simp at hs
    | some serverRecord =>
      simp only [hf] at h
      split at h
      · cases hm : markOperationProcessed st oid "DELETE" t with
        | error e =>
          simp only [hm, Prod.mk.injEq] at h
          rw [← h.1] at hs
          simp at hs
        | ok st1 =>
          simp only [hm, Prod.mk.injEq] at h
          rw [← h.1] at hs
          simp at hs
      · split at h
        · cases hcc : createConflict st oid t (d.id.getD "") (some serverRecord) d
              serverRecord.version (d.version.getD 0) with
          | error e =>
            simp only [hcc, Prod.mk.injEq] at h
            rw [← h.1] at hs
            simp at hs
          | ok pr =>
            obtain ⟨c, st1⟩ := pr
            simp only [hcc, Prod.mk.injEq] at h
            obtain ⟨h1, h2⟩ := h
            subst h2
            obtain ⟨hc, hshape⟩ := createConflict_ok hcc
            subst hshape
            exact ⟨c, rfl, rfl, rfl, rfl⟩
        · cases hu : deleteRecordWithVersionCheck st t (d.id.getD "")
              (d.version.getD 0) with
          | none =>
            simp only [hu, Prod.mk.injEq] at h
            rw [← h.1] at hs
            simp at hs
          | some pr =>
            obtain ⟨r1, st1⟩ := pr
            simp only [hu] at h
            cases hm : markOperationProcessed st1 oid "DELETE" t with
            | error e =>
              simp only [hm, Prod.mk.injEq] at h
              rw [← h.1] at hs
              simp at hs
            | ok st2 =>
              simp only [hm, Prod.mk.injEq] at h
              rw [← h.1] at hs
              simp at hs

/-- C4: when an operation's result is CONFLICT, its processing leaves
every record table and the ledger exactly as they were; the only persisted
effect is the single new conflict record pushed onto the conflict store. -/
theorem conflict_result_frame (st : ServerState) (op : SyncOperation)
    (res : OperationResult) (st' : ServerState)
    (h : processSingleOperation st op = (res, st'))
    (hs : res.status = .CONFLICT) :
    ∃ c, st'.todos = st.todos ∧ st'.notes = st.notes ∧
      st'.ledger = st.ledger ∧ st'.conflicts = c :: st.conflicts := by
  unfold processSingleOperation at h
  split at h
  · simp only [Prod.mk.injEq] at h
    rw [← h.1] at hs
    simp at hs
  · split at h
    · exact absurd hs (handleCreate_status_ne_conflict h)
    · exact handleUpdate_conflict_frame h hs
    · exact handleDelete_conflict_frame h hs

def c4State : ServerState :=
  ⟨[⟨"t1", "srv", none, some "pending", 5, none⟩], [], [], [], 2, 0⟩

def c4Op : SyncOperation :=
  { operationId := "o4", action := .UPDATE, table := .todos,
    data := { id := some "t1", version := some 3, title := some "cli" } }

/-- Witness for C4: a version-mismatch UPDATE whose result is CONFLICT. -/
theorem conflict_result_frame_witness :
    (processSingleOperation c4State c4Op).1.status = .CONFLICT ∧
      ∃ c, (processSingleOperation c4State c4Op).2.todos = c4State.todos ∧
        (processSingleOperation c4State c4Op).2.notes = c4State.notes ∧
        (processSingleOperation c4State c4Op).2.ledger = c4State.ledger ∧
        (processSingleOperation c4State c4Op).2.conflicts =
          c :: c4State.conflicts :=
  ⟨by decide,
    conflict_result_frame c4State c4Op (processSingleOperation c4State c4Op).1
      (processSingleOperation c4State c4Op).2 rfl (by decide)⟩

end TodoSync
